import Mathlib

/-!
# A verification development for `resolve.py`

This file gives a shallow embedding of the iterative DNS resolver in
`src/resolve.py` (the referral walker `lookup_iter`, the root resolution
driver `lookup`, the result collector `collect_results`, the name cache
`my_dictionary`, and the per-name loop of `main`), and proves theorems
about the embedded definitions.

Modelling conventions:
* dnspython `Rdata` objects are the inductive `Rdata`; an rdata's `rdtype`
  is determined by its class in dnspython, hence by the constructor here.
* `dns.message.Message` is the structure `Message` (rcode plus the three
  sections the code reads); `dns.message.Message()` is `emptyMessage`
  (rcode NOERROR, all sections empty).
* DNS names are carried as their textual form (`String`);
  `dns.name.from_text` is modelled as the identity on that form, since
  nothing in the code depends on name normalisation.
* The UDP transport (`dns.query.udp`) is an oracle `Net`, mapping the
  query triple (name, qtype, server) to a parsed message, a `Timeout`,
  or another `DNSException`.
* Computations run in `M`, which pairs an `Except PyError` result with
  the list of query triples sent on the wire, in order.  A Python
  exception that no handler catches (`AttributeError`, `IndexError`,
  an unbound local) is an `Except.error`; `outOfFuel` is the model's
  bound on recursion depth, which the Python code leaves unbounded.
* The mutually recursive walk is indexed by fuel; every nested call
  (a deeper walk step, an NS sub-lookup, a CNAME restart) runs at the
  predecessor fuel, so fuel bounds the recursion depth only — a single
  query with its local section scans costs no fuel.
-/

namespace Resolve

/-- An uncaught Python exception (or fuel exhaustion of the model). -/
inductive PyError where
  | attributeError
  | indexError
  | nameError
  | outOfFuel
deriving DecidableEq

/-- One query sent on the wire: (target name, qtype, server address). -/
abbrev Query := String × Nat × String

/-- The effect monad of the embedding: an `Except` result paired with the
ordered list of queries sent. -/
def M (α : Type) : Type := Except PyError α × List Query

def M.pure {α : Type} (a : α) : M α := (Except.ok a, [])

def M.bind {α β : Type} (x : M α) (f : α → M β) : M β :=
  match x.1 with
  | Except.error e => (Except.error e, x.2)
  | Except.ok a => ((f a).1, x.2 ++ (f a).2)

instance : Monad M where
  pure := M.pure
  bind := M.bind

/-- Raise an uncaught Python exception. -/
def mthrow {α : Type} (e : PyError) : M α := (Except.error e, [])

/-- Record one wire query. -/
def tell (q : Query) : M Unit := (Except.ok (), [q])

/-- Python `xs[0]`: `IndexError` on an empty sequence. -/
def mget0 {α : Type} : List α → M α
  | [] => mthrow PyError.indexError
  | x :: _ => M.pure x

/-- Prepend an already-produced query log to a computation's log. -/
def withLog {α : Type} (l : List Query) (x : M α) : M α := (x.1, l ++ x.2)

/-- dnspython rdata; the constructor fixes the rdtype, as the rdata's
class does in dnspython. -/
inductive Rdata where
  | a (address : String)
  | aaaa (address : String)
  | cname (target : String)
  | ns (nsname : String)
  | mx (preference : Nat) (exchange : String)
  | soa (text : String)
deriving DecidableEq

/-- `rdata.rdtype`: the numeric DNS type code. -/
def Rdata.rdtype : Rdata → Nat
  | .a _ => 1
  | .ns _ => 2
  | .cname _ => 5
  | .soa _ => 6
  | .mx _ _ => 15
  | .aaaa _ => 28

/-- `str(rdata)`: the textual form the code extracts addresses and names
from. -/
def Rdata.str : Rdata → String
  | .a address => address
  | .aaaa address => address
  | .cname target => target
  | .ns nsname => nsname
  | .mx preference exchange => toString preference ++ " " ++ exchange
  | .soa text => text

/-- `rdata.preference` (only MX rdatas reach this accessor in the code,
behind an `rdtype == 15` filter; the default arm is unreachable because
the constructor fixes the rdtype). -/
def Rdata.preference : Rdata → Nat
  | .mx preference _ => preference
  | _ => 0

/-- `str(rdata.exchange)` (same remark as for `Rdata.preference`). -/
def Rdata.exchange : Rdata → String
  | .mx _ exchange => exchange
  | _ => ""

/-- A dnspython `RRset`: owner name, rrset-level rdtype, member rdatas.
The code reads the rrset-level `rdtype` (`response.answer[0].rdtype`,
`response.authority[0].rdtype`) as well as the members' own rdtypes. -/
structure RRset where
  name : String
  rdtype : Nat
  records : List Rdata
deriving DecidableEq

/-- A parsed `dns.message.Message`: its rcode and the three sections the
resolver inspects. -/
structure Message where
  rcode : Nat
  answer : List RRset
  authority : List RRset
  additional : List RRset
deriving DecidableEq

/-- `dns.message.Message()`: rcode NOERROR and all sections empty. -/
def emptyMessage : Message := ⟨0, [], [], []⟩

/-- Outcome of one `dns.query.udp` exchange. -/
inductive NetResult where
  | ok (msg : Message)
  | timeout
  | dnsError
deriving DecidableEq

/-- The transport oracle: query triple to outcome. -/
abbrev Net := String → Nat → String → NetResult

/-- The fixed ordered root server list of `resolve.py`. -/
def ROOT_SERVERS : List String :=
  ["198.41.0.4", "199.9.14.201", "192.33.4.12", "199.7.91.13",
   "192.203.230.10", "192.5.5.241", "192.112.36.4", "198.97.190.53",
   "192.36.148.17", "192.58.128.30", "193.0.14.129", "199.7.83.42",
   "202.12.27.33"]

/-- `dns.name.from_text`, modelled as the identity on the textual form. -/
def from_text (s : String) : String := s

/-- The inner loop over one additional-section rrset (`for addx in add`):
recurse on each type-A glue record via `glueStep`, then `if found: break`.
`glueStep` is the walker's recursion against the extracted address. -/
def additionalInnerGo (glueStep : String → Bool → M (Message × Bool)) :
    List Rdata → Message → Bool → M (Message × Bool)
  | [], resp, found => M.pure (resp, found)
  | rd :: rest, resp, found => do
    let (resp, found) ←
      if rd.rdtype = 1 then glueStep rd.str found else M.pure (resp, found)
    if found then M.pure (resp, found)
    else additionalInnerGo glueStep rest resp found

/-- The outer loop over the additional section
(`for add in response.additional`), with `if found: break` after each
rrset. -/
def additionalOuterGo (glueStep : String → Bool → M (Message × Bool)) :
    List RRset → Message → Bool → M (Message × Bool)
  | [], resp, found => M.pure (resp, found)
  | add :: rest, resp, found => do
    let (resp, found) ← additionalInnerGo glueStep add.records resp found
    if found then M.pure (resp, found)
    else additionalOuterGo glueStep rest resp found

/-- The inner loop over one authority rrset (`for authx in auth`): an NS
record runs `nsStep` (sub-lookup of the nameserver address plus the
recursive walk) and the loop then continues with the next record — only
an SOA record breaks it, setting found. -/
def authorityInnerGo (nsStep : String → Bool → M (Message × Bool)) :
    List Rdata → Message → Bool → M (Message × Bool)
  | [], resp, found => M.pure (resp, found)
  | authx :: rest, resp, found =>
    if authx.rdtype = 2 then do
      let (resp, found) ← nsStep authx.str found
      authorityInnerGo nsStep rest resp found
    else if authx.rdtype = 6 then M.pure (resp, true)
    else authorityInnerGo nsStep rest resp found

/-- The outer loop over the authority section
(`for auth in response.authority`), with `if found: break` after each
rrset. -/
def authorityOuterGo (nsStep : String → Bool → M (Message × Bool)) :
    List RRset → Message → Bool → M (Message × Bool)
  | [], resp, found => M.pure (resp, found)
  | auth :: rest, resp, found => do
    let (resp, found) ← authorityInnerGo nsStep auth.records resp found
    if found then M.pure (resp, found)
    else authorityOuterGo nsStep rest resp found

/-- The root-server loop of `lookup`: run the walker (`iterStep`) against
each root in turn; a non-empty answer returns (after a CNAME restart via
`restart` when the first answer rrset is CNAME and the query type is
not); a first-authority-record SOA breaks the loop; otherwise continue,
remembering the last response.  After the loop the last response is
returned (`nameError` models the unbound `response` if the server list
were empty). -/
def lookupLoopGo (qt : Nat) (iterStep : String → Bool → M (Message × Bool))
    (restart : String → M Message) :
    List String → Bool → Option Message → M Message
  | [], _, none => mthrow PyError.nameError
  | [], _, some r => M.pure r
  | server :: rest, found, _olast => do
    let (response, found') ← iterStep server found
    match response.answer with
    | ans0 :: _ =>
      if ans0.rdtype = 5 ∧ qt ≠ 5 then do
        let rd0 ← mget0 ans0.records
        restart (from_text rd0.str)
      else M.pure response
    | [] =>
      match response.authority with
      | auth0 :: _ =>
        if auth0.rdtype = 6 then M.pure response
        else lookupLoopGo qt iterStep restart rest found' (some response)
      | [] => lookupLoopGo qt iterStep restart rest found' (some response)

mutual

/-- `lookup(target_name, qtype, dc)`: the root resolution driver.  (The
cache argument `dc` is threaded through the Python code but never read
or written below `collect_results`, so it is dropped here.) -/
def lookup : Nat → Net → String → Nat → M Message
  | 0, _, _, _ => mthrow PyError.outOfFuel
  | fuel + 1, net, target_name, qt =>
    lookupLoopGo qt
      (fun server found => lookup_iter fuel net target_name qt server found)
      (fun nm => lookup fuel net nm qt)
      ROOT_SERVERS false none

/-- `lookup_iter(target_name, qtype, server, found, dc)`: one walker
step.  Sends the query; a `Timeout` or other `DNSException` is caught
and degrades to `(Message(), False)`.  On `rcode != NOERROR` the code
rebinds `response` to the integer `dns.rcode.NXDOMAIN`, so the very next
attribute access `response.answer` raises an `AttributeError` caught by
neither handler.  Otherwise: a non-empty answer is terminal; else glue
recursion over the additional section; else, if found is still false,
the authority scan, where each NS record triggers a fresh top-level
type-A `lookup` of the nameserver name, the first rdata of the first
answer rrset of which (`ns_response.answer[0][0]`, two potential
`IndexError`s) becomes the next server. -/
def lookup_iter : Nat → Net → String → Nat → String → Bool → M (Message × Bool)
  | 0, _, _, _, _, _ => mthrow PyError.outOfFuel
  | fuel + 1, net, target_name, qt, server, found => do
    tell (target_name, qt, server)
    match net target_name qt server with
    | NetResult.timeout => M.pure (emptyMessage, false)
    | NetResult.dnsError => M.pure (emptyMessage, false)
    | NetResult.ok response =>
      if response.rcode ≠ 0 then mthrow PyError.attributeError
      else if response.answer ≠ [] then M.pure (response, true)
      else if response.additional ≠ [] then
        additionalOuterGo
          (fun addr f => lookup_iter fuel net target_name qt addr f)
          response.additional response found
      else if response.authority ≠ [] ∧ found = false then
        authorityOuterGo
          (fun nsname f => do
            let ns_response ← lookup fuel net nsname 1
            let rr0 ← mget0 ns_response.answer
            let rd0 ← mget0 rr0.records
            lookup_iter fuel net target_name qt rd0.str f)
          response.authority response found
      else M.pure (response, found)

end

/-- One entry of the record map: the per-type field dictionaries built by
`collect_results` (`{"name": …, "alias": …}`, `{"name": …, "address": …}`,
`{"name": …, "preference": …, "exchange": …}`). -/
inductive REntry where
  | cnameEntry (name : String) (aliasName : String)
  | addrEntry (name : String) (address : String)
  | mxEntry (name : String) (preference : Nat) (exchange : String)
deriving DecidableEq

/-- The record map `full_response`: an insertion-ordered dictionary from
record type name to its entry list. -/
abbrev RecordMap := List (String × List REntry)

/-- `results.get(rtype, [])`, as the presentation layer reads the map. -/
def RecordMap.get : RecordMap → String → List REntry
  | [], _ => []
  | (k, v) :: rest, key => if k = key then v else RecordMap.get rest key

/-- The `my_dictionary` name cache: queried name to record map. -/
abbrev Cache := List (String × RecordMap)

/-- Python `dict.get(key)`: `None` when the key is absent. -/
def Cache.get : Cache → String → Option RecordMap
  | [], _ => none
  | (k, v) :: rest, key => if k = key then some v else Cache.get rest key

/-- `my_dictionary.add` (`self[key] = value`). -/
def Cache.add : Cache → String → RecordMap → Cache
  | [], key, v => [(key, v)]
  | (k, v') :: rest, key, v =>
    if k = key then (key, v) :: rest else (k, v') :: Cache.add rest key v

/-- `collect_results(name, domaincache)`: four fixed lookups (CNAME 5,
A 1, AAAA 28, MX 15) assembled into `full_response`, which is written to
the cache only after it is fully assembled, and returned.  The CNAME
pass appends an entry for every answer rdata with `alias` equal to the
queried name; the A/AAAA/MX passes filter the rdatas by rdtype and take
the owner name from the rrset. -/
def collect_results (fuel : Nat) (net : Net) (name : String) (domaincache : Cache) :
    M (RecordMap × Cache) := do
  let target_name := from_text name
  let respC ← lookup fuel net target_name 5
  let cnames := respC.answer.flatMap
    (fun answers => answers.records.map
      (fun answer => REntry.cnameEntry answer.str name))
  let respA ← lookup fuel net target_name 1
  let arecords := respA.answer.flatMap
    (fun answers => (answers.records.filter (fun answer => answer.rdtype == 1)).map
      (fun answer => REntry.addrEntry answers.name answer.str))
  let respA4 ← lookup fuel net target_name 28
  let aaaarecords := respA4.answer.flatMap
    (fun answers => (answers.records.filter (fun answer => answer.rdtype == 28)).map
      (fun answer => REntry.addrEntry answers.name answer.str))
  let respM ← lookup fuel net target_name 15
  let mxrecords := respM.answer.flatMap
    (fun answers => (answers.records.filter (fun answer => answer.rdtype == 15)).map
      (fun answer => REntry.mxEntry answers.name answer.preference answer.exchange))
  let full_response : RecordMap :=
    [("CNAME", cnames), ("A", arecords), ("AAAA", aaaarecords), ("MX", mxrecords)]
  M.pure (full_response, Cache.add domaincache name full_response)

/-- The per-name loop of `main`: on a cache hit (`dict_obj.get` returns a
record map, which is a four-key dict and hence truthy) print the cached
map; otherwise run `collect_results` and print its output.  The boolean
in the output records whether the printed map came from the cache. -/
def mainLoop (fuel : Nat) (net : Net) :
    List String → Cache → M (List (RecordMap × Bool) × Cache)
  | [], dict_obj => M.pure ([], dict_obj)
  | a_domain_name :: rest, dict_obj =>
    match Cache.get dict_obj a_domain_name with
    | some cache => do
      let (out, dcf) ← mainLoop fuel net rest dict_obj
      M.pure ((cache, true) :: out, dcf)
    | none => do
      let (printed, dc1) ← collect_results fuel net a_domain_name dict_obj
      let (out, dcf) ← mainLoop fuel net rest dc1
      M.pure ((printed, false) :: out, dcf)

/-! ## Concrete transports and messages used in the theorems below -/

/-- A log in which every query's type is the original type or A (1). -/
def qtypesOk (qt : Nat) (l : List Query) : Prop := ∀ q ∈ l, q.2.1 = qt ∨ q.2.1 = 1

/-- A transport whose every response carries rcode SERVFAIL (2). -/
def netC1 : Net := fun _ _ _ => NetResult.ok ⟨2, [], [], []⟩

/-- A referral to nameserver name "ns.dead." with no glue. -/
def refC2 : Message := ⟨0, [], [⟨"example.", 2, [Rdata.ns "ns.dead."]⟩], []⟩

/-- A transport that refers "bad.example." to "ns.dead." and times out on
every query for "ns.dead.", so the NS sub-lookup returns an empty answer. -/
def netC2 : Net := fun nm _qt _server =>
  if nm = "bad.example." then NetResult.ok refC2 else NetResult.timeout

/-- A response whose first answer rrset is a CNAME to "t.". -/
def respC3 : Message := ⟨0, [⟨"w.", 5, [Rdata.cname "t."]⟩], [], []⟩

/-- A walker stub returning the CNAME answer above. -/
def step3 : String → Bool → M (Message × Bool) := fun _ _ => (Except.ok (respC3, true), [])

/-- A restart stub for the driver loop. -/
def restart3 : String → M Message := fun _ => (Except.ok emptyMessage, [])

/-- An answerless response whose first authority record is SOA. -/
def respC4 : Message := ⟨0, [], [⟨"z.", 6, [Rdata.soa "negative"]⟩], []⟩

/-- An answerless response whose first authority record is NS, not SOA. -/
def respC4b : Message := ⟨0, [], [⟨"z.", 2, [Rdata.ns "n."]⟩], []⟩

/-- A walker stub: SOA-authority response at server "s1", NS-authority
response elsewhere. -/
def step4 : String → Bool → M (Message × Bool) := fun s _ =>
  if s = "s1" then (Except.ok (respC4, false), []) else (Except.ok (respC4b, false), [])

/-- A transport that times out on every query. -/
def netC5 : Net := fun _ _ _ => NetResult.timeout

/-- Type-A answer for nameserver name "ns1.". -/
def msgNs1 : Message := ⟨0, [⟨"ns1.", 1, [Rdata.a "10.0.0.1"]⟩], [], []⟩

/-- Type-A answer for nameserver name "ns2.". -/
def msgNs2 : Message := ⟨0, [⟨"ns2.", 1, [Rdata.a "10.0.0.2"]⟩], [], []⟩

/-- Answer for the target obtained via the first nameserver. -/
def msgA1 : Message := ⟨0, [⟨"www.target.", 1, [Rdata.a "1.1.1.1"]⟩], [], []⟩

/-- Answer for the target obtained via the second nameserver. -/
def msgA2 : Message := ⟨0, [⟨"www.target.", 1, [Rdata.a "2.2.2.2"]⟩], [], []⟩

/-- A referral whose single authority rrset lists two NS records. -/
def refC6 : Message := ⟨0, [], [⟨"target.", 2, [Rdata.ns "ns1.", Rdata.ns "ns2."]⟩], []⟩

/-- A transport on which the first NS candidate already succeeds, so any
query to the second candidate is observable in the log. -/
def netC6 : Net := fun nm _qt server =>
  if nm = "ns1." then NetResult.ok msgNs1
  else if nm = "ns2." then NetResult.ok msgNs2
  else if server = "s0" then NetResult.ok refC6
  else if server = "10.0.0.1" then NetResult.ok msgA1
  else if server = "10.0.0.2" then NetResult.ok msgA2
  else NetResult.timeout

/-- A successful walk result used by the short-circuit statements. -/
def msgW : Message := ⟨0, [⟨"w.", 1, [Rdata.a "7.7.7.7"]⟩], [], []⟩

/-- The query log of the stub step below. -/
def lW : List Query := [("q.", 1, "z")]

/-- A step stub that succeeds immediately with one logged query. -/
def stepW : String → Bool → M (Message × Bool) := fun _ _ => (Except.ok (msgW, true), lW)

/-- A referral of "www.six." to nameserver name "ns6." with no glue. -/
def refC7 : Message := ⟨0, [], [⟨"six.", 2, [Rdata.ns "ns6."]⟩], []⟩

/-- Type-A answer for nameserver name "ns6.". -/
def msgNs6 : Message := ⟨0, [⟨"ns6.", 1, [Rdata.a "10.0.0.6"]⟩], [], []⟩

/-- AAAA answer for "www.six." served by the delegated nameserver. -/
def msgA6 : Message := ⟨0, [⟨"www.six.", 28, [Rdata.aaaa "::6"]⟩], [], []⟩

/-- A transport on which an AAAA query walks through an NS referral, so
the nameserver sub-lookup's query type is observable in the log. -/
def netC7 : Net := fun nm qt server =>
  if nm = "ns6." then NetResult.ok msgNs6
  else if qt = 28 ∧ server = "198.41.0.4" then NetResult.ok refC7
  else if qt = 28 ∧ server = "10.0.0.6" then NetResult.ok msgA6
  else NetResult.timeout

/-- A direct answer of the type-appropriate record for name "x.". -/
def msgFor (qt : Nat) : Message :=
  if qt = 5 then ⟨0, [⟨"x.", 5, [Rdata.cname "c."]⟩], [], []⟩
  else if qt = 1 then ⟨0, [⟨"x.", 1, [Rdata.a "9.9.9.9"]⟩], [], []⟩
  else if qt = 28 then ⟨0, [⟨"x.", 28, [Rdata.aaaa "::9"]⟩], [], []⟩
  else ⟨0, [⟨"x.", 15, [Rdata.mx 10 "mail.x."]⟩], [], []⟩

/-- A transport whose first root server answers every query type
directly. -/
def netCol : Net := fun _nm qt server =>
  if server = "198.41.0.4" then NetResult.ok (msgFor qt) else NetResult.timeout

/-- The record map `collect_results` assembles for "x." on `netCol`. -/
def mCol : RecordMap :=
  [("CNAME", [REntry.cnameEntry "c." "x."]), ("A", [REntry.addrEntry "x." "9.9.9.9"]),
   ("AAAA", [REntry.addrEntry "x." "::9"]), ("MX", [REntry.mxEntry "x." 10 "mail.x."])]

/-- The four queries `collect_results` sends for "x." on `netCol`. -/
def lCol : List Query :=
  [("x.", 5, "198.41.0.4"), ("x.", 1, "198.41.0.4"),
   ("x.", 28, "198.41.0.4"), ("x.", 15, "198.41.0.4")]

/-- An answerless response whose additional section holds only non-A
records (AAAA and NS). -/
def respC10 : Message := ⟨0, [], [], [⟨"g.", 2, [Rdata.aaaa "::1", Rdata.ns "n."]⟩]⟩

/-- A transport always serving the non-A-glue referral above. -/
def netC10 : Net := fun _ _ _ => NetResult.ok respC10

/-- A glue-step stub that gains nothing. -/
def glue0 : String → Bool → M (Message × Bool) := fun _ _ => M.pure (emptyMessage, false)

/-! ## Helper lemmas -/

theorem bind_eq {α β : Type} (x : M α) (f : α → M β) : x >>= f = M.bind x f := rfl

theorem bind_fst_ok {α β : Type} {x : M α} {f : α → M β} {b : β}
    (h : (x >>= f).1 = Except.ok b) :
    ∃ a, x.1 = Except.ok a ∧ (f a).1 = Except.ok b := by
  replace h : (M.bind x f).1 = Except.ok b := h
  unfold M.bind at h
  cases hx : x.1 with
  | error e => rw [hx] at h; exact Except.noConfusion h
  | ok a => rw [hx] at h; exact ⟨a, rfl, h⟩

theorem qtypesOk_nil (qt : Nat) : qtypesOk qt [] := by intro q hq; cases hq

theorem qtypesOk_bind {qt : Nat} {α β : Type} {x : M α} {f : α → M β}
    (hx : qtypesOk qt x.2) (hf : ∀ a, qtypesOk qt (f a).2) :
    qtypesOk qt (x >>= f).2 := by
  replace hx : qtypesOk qt ((x.1, x.2) : M α).2 := hx
  show qtypesOk qt (M.bind x f).2
  unfold M.bind
  cases hx1 : x.1 with
  | error e => exact hx
  | ok a =>
    intro q hq
    rcases List.mem_append.mp hq with h | h
    · exact hx q h
    · exact hf a q h

theorem qtypesOk_weaken {qt : Nat} {l : List Query} (h : qtypesOk 1 l) : qtypesOk qt l := by
  intro q hq
  rcases h q hq with h1 | h1 <;> exact Or.inr h1

theorem qtypesOk_addInner {qt : Nat} {glueStep : String → Bool → M (Message × Bool)}
    (hg : ∀ s f, qtypesOk qt (glueStep s f).2) :
    ∀ (rds : List Rdata) (resp : Message) (found : Bool),
      qtypesOk qt (additionalInnerGo glueStep rds resp found).2 := by
  intro rds
  induction rds with
  | nil => intro resp found; exact qtypesOk_nil qt
  | cons rd rest ih =>
    intro resp found
    rw [additionalInnerGo]
    by_cases h1 : rd.rdtype = 1
    · rw [if_pos h1]
      refine qtypesOk_bind (hg rd.str found) ?_
      rintro ⟨r, f⟩
      cases f
      · exact ih r false
      · exact qtypesOk_nil qt
    · rw [if_neg h1]
      refine qtypesOk_bind (qtypesOk_nil qt) ?_
      rintro ⟨r, f⟩
      cases f
      · exact ih r false
      · exact qtypesOk_nil qt

theorem qtypesOk_addOuter {qt : Nat} {glueStep : String → Bool → M (Message × Bool)}
    (hg : ∀ s f, qtypesOk qt (glueStep s f).2) :
    ∀ (sets : List RRset) (resp : Message) (found : Bool),
      qtypesOk qt (additionalOuterGo glueStep sets resp found).2 := by
  intro sets
  induction sets with
  | nil => intro resp found; exact qtypesOk_nil qt
  | cons s rest ih =>
    intro resp found
    rw [additionalOuterGo]
    refine qtypesOk_bind (qtypesOk_addInner hg s.records resp found) ?_
    rintro ⟨r, f⟩
    cases f
    · exact ih r false
    · exact qtypesOk_nil qt

theorem qtypesOk_authInner {qt : Nat} {nsStep : String → Bool → M (Message × Bool)}
    (hg : ∀ s f, qtypesOk qt (nsStep s f).2) :
    ∀ (rds : List Rdata) (resp : Message) (found : Bool),
      qtypesOk qt (authorityInnerGo nsStep rds resp found).2 := by
  intro rds
  induction rds with
  | nil => intro resp found; exact qtypesOk_nil qt
  | cons rd rest ih =>
    intro resp found
    rw [authorityInnerGo]
    by_cases h2 : rd.rdtype = 2
    · rw [if_pos h2]
      refine qtypesOk_bind (hg rd.str found) ?_
      rintro ⟨r, f⟩
      exact ih r f
    · rw [if_neg h2]
      by_cases h6 : rd.rdtype = 6
      · rw [if_pos h6]; exact qtypesOk_nil qt
      · rw [if_neg h6]; exact ih resp found

theorem qtypesOk_authOuter {qt : Nat} {nsStep : String → Bool → M (Message × Bool)}
    (hg : ∀ s f, qtypesOk qt (nsStep s f).2) :
    ∀ (sets : List RRset) (resp : Message) (found : Bool),
      qtypesOk qt (authorityOuterGo nsStep sets resp found).2 := by
  intro sets
  induction sets with
  | nil => intro resp found; exact qtypesOk_nil qt
  | cons s rest ih =>
    intro resp found
    rw [authorityOuterGo]
    refine qtypesOk_bind (qtypesOk_authInner hg s.records resp found) ?_
    rintro ⟨r, f⟩
    cases f
    · exact ih r false
    · exact qtypesOk_nil qt

theorem qtypesOk_loopGo {qt : Nat} {iterStep : String → Bool → M (Message × Bool)}
    {restart : String → M Message}
    (hi : ∀ s f, qtypesOk qt (iterStep s f).2)
    (hr : ∀ nm, qtypesOk qt (restart nm).2) :
    ∀ (servers : List String) (found : Bool) (olast : Option Message),
      qtypesOk qt (lookupLoopGo qt iterStep restart servers found olast).2 := by
  intro servers
  induction servers with
  | nil =>
    intro found olast
    cases olast
    · exact qtypesOk_nil qt
    · exact qtypesOk_nil qt
  | cons server rest ih =>
    intro found olast
    rw [lookupLoopGo]
    refine qtypesOk_bind (hi server found) ?_
    rintro ⟨response, f'⟩
    rcases response with ⟨rc, ans, auth, add⟩
    cases ans with
    | cons a0 arest =>
      show qtypesOk qt (if a0.rdtype = 5 ∧ qt ≠ 5 then _ >>= _ else M.pure _).2
      by_cases hc : a0.rdtype = 5 ∧ qt ≠ 5
      · rw [if_pos hc]
        refine qtypesOk_bind ?_ ?_
        · cases a0.records <;> exact qtypesOk_nil qt
        · intro rd; exact hr (from_text rd.str)
      · rw [if_neg hc]; exact qtypesOk_nil qt
    | nil =>
      cases auth with
      | cons auth0 arest =>
        show qtypesOk qt
          (if auth0.rdtype = 6 then M.pure _
           else lookupLoopGo qt iterStep restart rest f' _).2
        by_cases h6 : auth0.rdtype = 6
        · rw [if_pos h6]; exact qtypesOk_nil qt
        · rw [if_neg h6]; exact ih f' _
      | nil => exact ih f' _

/-- The mutual induction behind the query-type invariant: at every fuel,
every query the walker or the driver sends carries the original query
type or type A. -/
theorem walk_qtypes : ∀ fuel : Nat,
    (∀ (net : Net) (tn : String) (qt : Nat) (server : String) (found : Bool),
      qtypesOk qt (lookup_iter fuel net tn qt server found).2) ∧
    (∀ (net : Net) (tn : String) (qt : Nat),
      qtypesOk qt (lookup fuel net tn qt).2) := by
  intro fuel
  induction fuel with
  | zero => exact ⟨fun _ _ qt _ _ => qtypesOk_nil qt, fun _ _ qt => qtypesOk_nil qt⟩
  | succ n ih =>
    constructor
    · intro net tn qt server found
      rw [lookup_iter]
      refine qtypesOk_bind ?_ ?_
      · intro q hq
        rw [show (tell (tn, qt, server)).2 = [(tn, qt, server)] from rfl] at hq
        rw [List.mem_singleton] at hq
        subst hq
        exact Or.inl rfl
      · intro u
        cases hnr : net tn qt server with
        | timeout => exact qtypesOk_nil qt
        | dnsError => exact qtypesOk_nil qt
        | ok response =>
          show qtypesOk qt
            (if response.rcode ≠ 0 then mthrow PyError.attributeError
             else if response.answer ≠ [] then M.pure (response, true)
             else if response.additional ≠ [] then
               additionalOuterGo (fun addr f => lookup_iter n net tn qt addr f)
                 response.additional response found
             else if response.authority ≠ [] ∧ found = false then
               authorityOuterGo
                 (fun nsname f => do
                   let ns_response ← lookup n net nsname 1
                   let rr0 ← mget0 ns_response.answer
                   let rd0 ← mget0 rr0.records
                   lookup_iter n net tn qt rd0.str f)
                 response.authority response found
             else M.pure (response, found)).2
          by_cases hrc : response.rcode ≠ 0
          · rw [if_pos hrc]; exact qtypesOk_nil qt
          · rw [if_neg hrc]
            by_cases hans : response.answer ≠ []
            · rw [if_pos hans]; exact qtypesOk_nil qt
            · rw [if_neg hans]
              by_cases hadd : response.additional ≠ []
              · rw [if_pos hadd]
                exact qtypesOk_addOuter (fun s f => ih.1 net tn qt s f) _ _ _
              · rw [if_neg hadd]
                by_cases hauth : response.authority ≠ [] ∧ found = false
                · rw [if_pos hauth]
                  refine qtypesOk_authOuter ?_ _ _ _
                  intro s f
                  refine qtypesOk_bind (qtypesOk_weaken (ih.2 net s 1)) ?_
                  intro ns_response
                  refine qtypesOk_bind ?_ ?_
                  · cases ns_response.answer <;> exact qtypesOk_nil qt
                  · intro rr0
                    refine qtypesOk_bind ?_ ?_
                    · cases rr0.records <;> exact qtypesOk_nil qt
                    · intro rd0; exact ih.1 net tn qt rd0.str f
                · rw [if_neg hauth]; exact qtypesOk_nil qt
    · intro net tn qt
      rw [lookup]
      exact qtypesOk_loopGo (fun s f => ih.1 net tn qt s f) (fun nm => ih.2 net nm qt)
        ROOT_SERVERS false none

theorem addInnerSkip (glueStep : String → Bool → M (Message × Bool)) (rds : List Rdata)
    (resp : Message) (found : Bool) (h : ∀ r ∈ rds, r.rdtype ≠ 1) :
    additionalInnerGo glueStep rds resp found = (Except.ok (resp, found), []) := by
  induction rds with
  | nil => rfl
  | cons rd rest ih =>
    have h1 : rd.rdtype ≠ 1 := h rd (List.mem_cons_self rd rest)
    have h2 : ∀ r ∈ rest, r.rdtype ≠ 1 := fun r hr => h r (List.mem_cons_of_mem rd hr)
    cases found <;>
      simp [additionalInnerGo, bind_eq, M.bind, M.pure, h1, ih h2]

theorem addOuterSkip (glueStep : String → Bool → M (Message × Bool)) (sets : List RRset)
    (resp : Message) (found : Bool) (h : ∀ s ∈ sets, ∀ r ∈ s.records, r.rdtype ≠ 1) :
    additionalOuterGo glueStep sets resp found = (Except.ok (resp, found), []) := by
  induction sets with
  | nil => rfl
  | cons s rest ih =>
    have h1 := h s (List.mem_cons_self s rest)
    have h2 : ∀ s' ∈ rest, ∀ r ∈ s'.records, r.rdtype ≠ 1 :=
      fun s' hs => h s' (List.mem_cons_of_mem s hs)
    cases found <;>
      simp [additionalOuterGo, bind_eq, M.bind, M.pure,
        addInnerSkip glueStep s.records resp _ h1, ih h2]

theorem cacheGet_add_ne (nm k : String) (m : RecordMap) (hne : k ≠ nm) :
    ∀ dc : Cache, Cache.get (Cache.add dc nm m) k = Cache.get dc k := by
  intro dc
  induction dc with
  | nil =>
    simp only [Cache.add, Cache.get]
    rw [if_neg (fun h => hne h.symm)]
  | cons p rest ih =>
    rcases p with ⟨k', v'⟩
    by_cases h : k' = nm
    · rw [Cache.add, if_pos h]
      simp only [Cache.get]
      rw [if_neg (fun hh => hne hh.symm), if_neg (fun hh => hne (h ▸ hh).symm)]
    · rw [Cache.add, if_neg h]
      simp only [Cache.get]
      by_cases hk : k' = k
      · rw [if_pos hk, if_pos hk]
      · rw [if_neg hk, if_neg hk, ih]

/-- On success, `collect_results` returns exactly the input cache with
the fully assembled record map written under the queried name. -/
theorem collect_results_cache (fuel : Nat) (net : Net) (name : String) (dc : Cache)
    {p : RecordMap × Cache}
    (h : (collect_results fuel net name dc).1 = Except.ok p) :
    p.2 = Cache.add dc name p.1 := by
  unfold collect_results at h
  obtain ⟨r1, hr1, h⟩ := bind_fst_ok h
  obtain ⟨r2, hr2, h⟩ := bind_fst_ok h
  obtain ⟨r3, hr3, h⟩ := bind_fst_ok h
  obtain ⟨r4, hr4, h⟩ := bind_fst_ok h
  simp only [M.pure, Except.ok.injEq] at h
  rw [← h]

/-- The per-name loop of `main` never removes or overwrites an existing
cache entry. -/
theorem mainLoop_preserves (fuel : Nat) (net : Net) :
    ∀ (names : List String) (dc : Cache) (out : List (RecordMap × Bool)) (dcf : Cache),
      (mainLoop fuel net names dc).1 = Except.ok (out, dcf) →
      ∀ k v, Cache.get dc k = some v → Cache.get dcf k = some v := by
  intro names
  induction names with
  | nil =>
    intro dc out dcf h k v hk
    simp only [mainLoop, M.pure, Except.ok.injEq, Prod.mk.injEq] at h
    rw [← h.2]
    exact hk
  | cons a rest ih =>
    intro dc out dcf h k v hk
    rw [mainLoop] at h
    cases hget : Cache.get dc a with
    | some cache =>
      rw [hget] at h
      obtain ⟨⟨out', dcf'⟩, h1, h2⟩ := bind_fst_ok h
      simp only [M.pure, Except.ok.injEq, Prod.mk.injEq] at h2
      rw [← h2.2]
      exact ih dc out' dcf' h1 k v hk
    | none =>
      rw [hget] at h
      obtain ⟨⟨printed, dc1⟩, h1, h⟩ := bind_fst_ok h
      obtain ⟨⟨out', dcf'⟩, h2, h3⟩ := bind_fst_ok h
      simp only [M.pure, Except.ok.injEq, Prod.mk.injEq] at h3
      rw [← h3.2]
      have hdc1 : dc1 = Cache.add dc a printed := collect_results_cache fuel net a dc h1
      have hne : k ≠ a := by
        intro he
        rw [he, hget] at hk
        exact Option.noConfusion hk
      refine ih dc1 out' dcf' h2 k v ?_
      rw [hdc1, cacheGet_add_ne a k printed hne dc]
      exact hk

/-! ## The claims -/

/-- C1: the claim says a parsed response with rcode different from
NOERROR makes the walker degrade to an empty Response with found false,
like a timeout, and that the subsequent classification never fails on
it.  The code instead rebinds the response variable to the integer
rcode constant and the very next attribute access raises an uncaught
AttributeError: on every such response the walker aborts with that
exception after sending its single query. -/
theorem c1_rcode_uncaught_attribute_error (fuel : Nat) (net : Net) (tn : String) (qt : Nat)
    (server : String) (found : Bool) (resp : Message)
    (hnet : net tn qt server = NetResult.ok resp) (hrc : resp.rcode ≠ 0) :
    lookup_iter (fuel + 1) net tn qt server found =
      (Except.error PyError.attributeError, [(tn, qt, server)]) := by
  simp [lookup_iter, bind_eq, M.bind, tell, M.pure, hnet, mthrow, hrc]

/-- C1 witness: a SERVFAIL response makes the walker abort. -/
theorem c1_witness :
    lookup_iter 1 netC1 "a." 1 "s" false =
      (Except.error PyError.attributeError, [("a.", 1, "s")]) :=
  c1_rcode_uncaught_attribute_error 0 netC1 "a." 1 "s" false ⟨2, [], [], []⟩ rfl (by decide)

/-- C2: the claim says resolution never aborts with an uncaught
exception, and in particular that the NS authority path survives a
nameserver sub-lookup whose answer section is empty.  On the transport
netC2 the sub-lookup of "ns.dead." completes with an empty answer
(first conjunct), and the top-level lookup of "bad.example." then aborts
with an uncaught IndexError at the extraction of the first answer rdata
(second conjunct). -/
theorem c2_ns_sub_lookup_empty_answer_crash :
    (lookup 4 netC2 "ns.dead." 1).1 = Except.ok emptyMessage ∧
    (lookup 5 netC2 "bad.example." 1).1 = Except.error PyError.indexError :=
  ⟨rfl, rfl⟩

/-- C3: in the driver loop, a walker response with a non-empty answer
whose first rrset is CNAME while the query type is not CNAME restarts
resolution from the root for the alias target and returns that
recursive result; otherwise the response is returned as-is.  The last
conjunct anchors the loop to the driver: lookup at successor fuel is
exactly this loop over the root servers. -/
theorem c3_cname_restart_from_root (qt : Nat) (iterStep : String → Bool → M (Message × Bool))
    (restart : String → M Message) (server : String) (rest : List String) (found : Bool)
    (olast : Option Message) (resp : Message) (f' : Bool) (l : List Query)
    (ans0 : RRset) (ansRest : List RRset)
    (hstep : iterStep server found = (Except.ok (resp, f'), l))
    (hans : resp.answer = ans0 :: ansRest) :
    ((ans0.rdtype = 5 ∧ qt ≠ 5) → ∀ rd rds, ans0.records = rd :: rds →
      lookupLoopGo qt iterStep restart (server :: rest) found olast =
        withLog l (restart (from_text rd.str))) ∧
    (¬ (ans0.rdtype = 5 ∧ qt ≠ 5) →
      lookupLoopGo qt iterStep restart (server :: rest) found olast = (Except.ok resp, l)) ∧
    (∀ (fuel : Nat) (net : Net) (tn : String), lookup (fuel + 1) net tn qt =
      lookupLoopGo qt (fun s f => lookup_iter fuel net tn qt s f)
        (fun nm => lookup fuel net nm qt) ROOT_SERVERS false none) := by
  refine ⟨?_, ?_, fun _ _ _ => rfl⟩
  · intro hc rd rds hrec
    simp [lookupLoopGo, bind_eq, M.bind, hstep, hans, hc, hrec, mget0, M.pure, withLog]
  · intro hc
    simp [lookupLoopGo, bind_eq, M.bind, hstep, hans, hc, M.pure]

/-- C3 witness: a CNAME answer under query type 1 restarts via the alias
target; the same answer under query type 5 is returned as-is. -/
theorem c3_witness :
    lookupLoopGo 1 step3 restart3 ["s"] false none =
      withLog [] (restart3 (from_text (Rdata.cname "t.").str)) ∧
    lookupLoopGo 5 step3 restart3 ["s"] false none = (Except.ok respC3, []) := by
  constructor
  · exact (c3_cname_restart_from_root 1 step3 restart3 "s" [] false none respC3 true []
      ⟨"w.", 5, [Rdata.cname "t."]⟩ [] rfl rfl).1 (by decide) (Rdata.cname "t.") [] rfl
  · exact (c3_cname_restart_from_root 5 step3 restart3 "s" [] false none respC3 true []
      ⟨"w.", 5, [Rdata.cname "t."]⟩ [] rfl rfl).2.1 (by decide)

/-- C4: in the driver loop, an answerless walker response whose first
authority record is SOA ends the root iteration at once — the result is
the same for every list of remaining root servers, which are therefore
never queried; with an empty server list the last response is returned;
and an answerless response without a leading SOA authority record makes
the loop continue to the remaining servers with the response remembered
as last. -/
theorem c4_soa_stops_root_iteration (qt : Nat)
    (iterStep : String → Bool → M (Message × Bool))
    (restart : String → M Message) (server : String) (found : Bool)
    (resp : Message) (f' : Bool) (l : List Query)
    (hstep : iterStep server found = (Except.ok (resp, f'), l)) :
    (resp.answer = [] → ∀ auth0 auths, resp.authority = auth0 :: auths → auth0.rdtype = 6 →
      ∀ (rest : List String) (olast : Option Message),
        lookupLoopGo qt iterStep restart (server :: rest) found olast = (Except.ok resp, l)) ∧
    (∀ (r : Message) (found0 : Bool),
      lookupLoopGo qt iterStep restart [] found0 (some r) = (Except.ok r, [])) ∧
    (resp.answer = [] →
      (resp.authority = [] ∨ ∃ a0 as, resp.authority = a0 :: as ∧ a0.rdtype ≠ 6) →
      ∀ (rest : List String) (olast : Option Message),
        lookupLoopGo qt iterStep restart (server :: rest) found olast =
          withLog l (lookupLoopGo qt iterStep restart rest f' (some resp))) := by
  refine ⟨?_, fun r found0 => rfl, ?_⟩
  · intro hans auth0 auths hauth hsoa rest olast
    simp [lookupLoopGo, bind_eq, M.bind, hstep, hans, hauth, hsoa, M.pure]
  · intro hans hcont rest olast
    rcases hcont with h | ⟨a0, as, hauth, hns⟩
    · simp [lookupLoopGo, bind_eq, M.bind, hstep, hans, h, withLog]
    · simp [lookupLoopGo, bind_eq, M.bind, hstep, hans, hauth, hns, withLog]

/-- C4 witness: an SOA-first authority response at "s1" settles the loop
for any remaining servers; the empty list returns the last response; a
non-SOA authority response at "s2" continues the loop. -/
theorem c4_witness :
    lookupLoopGo 1 step4 restart3 ["s1", "s2"] false none = (Except.ok respC4, []) ∧
    lookupLoopGo 1 step4 restart3 [] false (some respC4) = (Except.ok respC4, []) ∧
    lookupLoopGo 1 step4 restart3 ["s2"] false none =
      withLog [] (lookupLoopGo 1 step4 restart3 [] false (some respC4b)) := by
  refine ⟨?_, ?_, ?_⟩
  · exact (c4_soa_stops_root_iteration 1 step4 restart3 "s1" false respC4 false []
      rfl).1 rfl ⟨"z.", 6, [Rdata.soa "negative"]⟩ [] rfl rfl ["s2"] none
  · exact (c4_soa_stops_root_iteration 1 step4 restart3 "s1" false respC4 false []
      rfl).2.1 respC4 false
  · exact (c4_soa_stops_root_iteration 1 step4 restart3 "s2" false respC4b false []
      rfl).2.2 rfl (Or.inr ⟨⟨"z.", 2, [Rdata.ns "n."]⟩, [], rfl, by decide⟩) [] none

/-- C5: on a transport timeout, or any other DNSException of the
transport, the walker returns the empty Response (all three sections
empty) paired with found false, after its single query. -/
theorem c5_timeout_degrades_to_empty_response (fuel : Nat) (net : Net) (tn : String)
    (qt : Nat) (server : String) (found : Bool)
    (h : net tn qt server = NetResult.timeout ∨ net tn qt server = NetResult.dnsError) :
    lookup_iter (fuel + 1) net tn qt server found =
      (Except.ok (emptyMessage, false), [(tn, qt, server)]) ∧
    emptyMessage.answer = [] ∧ emptyMessage.authority = [] ∧ emptyMessage.additional = [] := by
  refine ⟨?_, rfl, rfl, rfl⟩
  rcases h with h | h <;>
    simp [lookup_iter, bind_eq, M.bind, tell, M.pure, h]

/-- C5 witness: a timed-out query yields the empty Response, found
false. -/
theorem c5_witness :
    lookup_iter 1 netC5 "a." 1 "s" false =
      (Except.ok (emptyMessage, false), [("a.", 1, "s")]) ∧
    emptyMessage.answer = [] ∧ emptyMessage.authority = [] ∧ emptyMessage.additional = [] :=
  c5_timeout_degrades_to_empty_response 0 netC5 "a." 1 "s" false (Or.inl rfl)

/-- C6 counterexample: on netC6 the walker's single authority rrset
lists two NS records; the first NS path already succeeds (answer
1.1.1.1 via 10.0.0.1, found true), yet the log shows the second
candidate was still resolved and queried ("ns2." and then 10.0.0.2),
and its response 2.2.2.2 — distinct from the first success — is the one
returned.  This refutes the claimed stop-at-first-success across
authority-record candidates. -/
theorem c6_counterexample :
    lookup_iter 6 netC6 "www.target." 1 "s0" false =
      (Except.ok (msgA2, true),
        [("www.target.", 1, "s0"), ("ns1.", 1, "198.41.0.4"),
         ("www.target.", 1, "10.0.0.1"), ("ns2.", 1, "198.41.0.4"),
         ("www.target.", 1, "10.0.0.2")]) ∧
    msgA2 ≠ msgA1 := ⟨rfl, by decide⟩

/-- C6 amended: glue candidates short-circuit exactly as claimed — a
successful recursion on a type-A additional record returns at once, for
any remaining records; across rrsets, both the additional and the
authority outer loops stop as soon as an rrset's scan reports found.
But within a single authority rrset only an SOA record breaks the scan:
after a successful NS candidate the loop continues into the remaining
records with the new response and found still true. -/
theorem c6_amended_short_circuit (glueStep nsStep : String → Bool → M (Message × Bool))
    (rd authx : Rdata) (rds : List Rdata) (add : RRset) (sets : List RRset)
    (resp resp' : Message) (found : Bool) (l : List Query) :
    (rd.rdtype = 1 → glueStep rd.str found = (Except.ok (resp', true), l) →
      additionalInnerGo glueStep (rd :: rds) resp found = (Except.ok (resp', true), l)) ∧
    (additionalInnerGo glueStep add.records resp found = (Except.ok (resp', true), l) →
      additionalOuterGo glueStep (add :: sets) resp found = (Except.ok (resp', true), l)) ∧
    (authorityInnerGo nsStep add.records resp found = (Except.ok (resp', true), l) →
      authorityOuterGo nsStep (add :: sets) resp found = (Except.ok (resp', true), l)) ∧
    (authx.rdtype = 2 → nsStep authx.str found = (Except.ok (resp', true), l) →
      authorityInnerGo nsStep (authx :: rds) resp found =
        withLog l (authorityInnerGo nsStep rds resp' true)) ∧
    (authx.rdtype = 6 →
      authorityInnerGo nsStep (authx :: rds) resp found = (Except.ok (resp, true), [])) := by
  refine ⟨?_, ?_, ?_, ?_, ?_⟩
  · intro h1 h2
    simp [additionalInnerGo, bind_eq, M.bind, M.pure, h1, h2]
  · intro h
    simp [additionalOuterGo, bind_eq, M.bind, M.pure, h]
  · intro h
    simp [authorityOuterGo, bind_eq, M.bind, M.pure, h]
  · intro h1 h2
    simp [authorityInnerGo, bind_eq, M.bind, M.pure, h1, h2, withLog]
  · intro h1
    have h2 : authx.rdtype ≠ 2 := by rw [h1]; decide
    simp [authorityInnerGo, bind_eq, M.bind, M.pure, h1, h2]

/-- C6 witness: the five short-circuit statements at concrete inputs. -/
theorem c6_witness :
    additionalInnerGo stepW [Rdata.a "1.2.3.4", Rdata.ns "n2."] emptyMessage false =
      (Except.ok (msgW, true), lW) ∧
    additionalOuterGo stepW [⟨"g.", 1, [Rdata.a "1.2.3.4"]⟩, ⟨"h.", 1, [Rdata.a "5.5.5.5"]⟩]
      emptyMessage false = (Except.ok (msgW, true), lW) ∧
    authorityOuterGo stepW [⟨"z.", 2, [Rdata.ns "n1."]⟩, ⟨"y.", 2, [Rdata.ns "n3."]⟩]
      emptyMessage false = (Except.ok (msgW, true), lW) ∧
    authorityInnerGo stepW [Rdata.ns "n1.", Rdata.ns "n2."] emptyMessage false =
      withLog lW (authorityInnerGo stepW [Rdata.ns "n2."] msgW true) ∧
    authorityInnerGo stepW [Rdata.soa "negative", Rdata.ns "n2."] emptyMessage false =
      (Except.ok (emptyMessage, true), []) := by
  refine ⟨?_, ?_, ?_, ?_, ?_⟩
  · exact (c6_amended_short_circuit stepW stepW (Rdata.a "1.2.3.4") (Rdata.ns "n1.")
      [Rdata.ns "n2."] ⟨"g.", 1, [Rdata.a "1.2.3.4"]⟩ [⟨"h.", 1, [Rdata.a "5.5.5.5"]⟩]
      emptyMessage msgW false lW).1 rfl rfl
  · exact (c6_amended_short_circuit stepW stepW (Rdata.a "1.2.3.4") (Rdata.ns "n1.")
      [Rdata.ns "n2."] ⟨"g.", 1, [Rdata.a "1.2.3.4"]⟩ [⟨"h.", 1, [Rdata.a "5.5.5.5"]⟩]
      emptyMessage msgW false lW).2.1 rfl
  · exact (c6_amended_short_circuit stepW stepW (Rdata.a "1.2.3.4") (Rdata.ns "n1.")
      [Rdata.ns "n2."] ⟨"z.", 2, [Rdata.ns "n1."]⟩ [⟨"y.", 2, [Rdata.ns "n3."]⟩]
      emptyMessage msgW false lW).2.2.1 rfl
  · exact (c6_amended_short_circuit stepW stepW (Rdata.a "1.2.3.4") (Rdata.ns "n1.")
      [Rdata.ns "n2."] ⟨"g.", 1, [Rdata.a "1.2.3.4"]⟩ [⟨"h.", 1, [Rdata.a "5.5.5.5"]⟩]
      emptyMessage msgW false lW).2.2.2.1 rfl rfl
  · exact (c6_amended_short_circuit stepW stepW (Rdata.a "1.2.3.4") (Rdata.soa "negative")
      [Rdata.ns "n2."] ⟨"g.", 1, [Rdata.a "1.2.3.4"]⟩ [⟨"h.", 1, [Rdata.a "5.5.5.5"]⟩]
      emptyMessage msgW false lW).2.2.2.2 rfl

/-- C7: every query the walker or the driver ever sends carries either
the original query type or type A (1) — the only source of
differently-typed queries is the NS sub-lookup, which always requests
type A.  The last two conjuncts exhibit this on a concrete AAAA (28)
resolution through an NS referral: the full wire log contains exactly
the two AAAA queries for the target and one type-1 — not 28 — query for
the nameserver name, and the walk still succeeds. -/
theorem c7_ns_sub_lookups_always_type_a :
    (∀ (fuel : Nat) (net : Net) (tn : String) (qt : Nat) (server : String) (found : Bool)
      (q : Query), q ∈ (lookup_iter fuel net tn qt server found).2 →
        q.2.1 = qt ∨ q.2.1 = 1) ∧
    (∀ (fuel : Nat) (net : Net) (tn : String) (qt : Nat) (q : Query),
      q ∈ (lookup fuel net tn qt).2 → q.2.1 = qt ∨ q.2.1 = 1) ∧
    (lookup 6 netC7 "www.six." 28).2 =
      [("www.six.", 28, "198.41.0.4"), ("ns6.", 1, "198.41.0.4"),
       ("www.six.", 28, "10.0.0.6")] ∧
    (lookup 6 netC7 "www.six." 28).1 = Except.ok msgA6 := by
  refine ⟨?_, ?_, rfl, rfl⟩
  · intro fuel net tn qt server found q hq
    exact (walk_qtypes fuel).1 net tn qt server found q hq
  · intro fuel net tn qt q hq
    exact (walk_qtypes fuel).2 net tn qt q hq

/-- C7 witness: the invariant applied to two concrete logged queries of
the AAAA resolution on netC7. -/
theorem c7_witness :
    ((("ns6.", 1, "198.41.0.4") : Query).2.1 = 28 ∨
      (("ns6.", 1, "198.41.0.4") : Query).2.1 = 1) ∧
    ((("www.six.", 28, "10.0.0.6") : Query).2.1 = 28 ∨
      (("www.six.", 28, "10.0.0.6") : Query).2.1 = 1) := by
  constructor
  · exact c7_ns_sub_lookups_always_type_a.2.1 6 netC7 "www.six." 28
      ("ns6.", 1, "198.41.0.4") (by decide)
  · exact c7_ns_sub_lookups_always_type_a.1 5 netC7 "www.six." 28 "198.41.0.4" false
      ("www.six.", 28, "10.0.0.6") (by decide)

/-- C8: after a completed lookup of a name stored its record map in the
cache, a second top-level lookup of the same name is served from the
cache: the run over the name listed twice prints the same map twice,
sends exactly the first lookup's queries and no more, the cache holds
exactly the entry written after the map was fully assembled, and no
existing cache entry is ever removed or overwritten during the
process. -/
theorem c8_cache_second_lookup_no_queries (fuel : Nat) (net : Net) (nm : String)
    (m : RecordMap) (dc1 : Cache) (l : List Query)
    (h : collect_results fuel net nm [] = (Except.ok (m, dc1), l)) :
    mainLoop fuel net [nm, nm] [] = (Except.ok ([(m, false), (m, true)], dc1), l) ∧
    dc1 = [(nm, m)] ∧
    (∀ (names : List String) (dc : Cache) (out : List (RecordMap × Bool)) (dcf : Cache),
      (mainLoop fuel net names dc).1 = Except.ok (out, dcf) →
      ∀ k v, Cache.get dc k = some v → Cache.get dcf k = some v) := by
  have h1 : (collect_results fuel net nm []).1 = Except.ok (m, dc1) := by rw [h]
  have hdc1 : dc1 = [(nm, m)] := by
    have h2 := collect_results_cache fuel net nm [] h1
    simpa [Cache.add] using h2
  subst hdc1
  refine ⟨?_, rfl, fun names dc out dcf hm => mainLoop_preserves fuel net names dc out dcf hm⟩
  have hg : Cache.get [(nm, m)] nm = some m := by simp [Cache.get]
  have e2 : mainLoop fuel net [nm] [(nm, m)] = (Except.ok ([(m, true)], [(nm, m)]), []) := by
    rw [mainLoop, hg]
    rfl
  rw [mainLoop]
  rw [show Cache.get ([] : Cache) nm = none from rfl]
  rw [bind_eq, h]
  simp only [M.bind]
  rw [bind_eq, e2]
  simp only [M.bind, M.pure]
  simp

/-- C8 witness: on netCol, looking "x." up twice prints the same record
map twice while the wire log stays the four queries of the first
lookup. -/
theorem c8_witness :
    mainLoop 2 netCol ["x.", "x."] [] =
      (Except.ok ([(mCol, false), (mCol, true)], [("x.", mCol)]), lCol) :=
  (c8_cache_second_lookup_no_queries 2 netCol "x." mCol [("x.", mCol)] lCol rfl).1

/-- C9: every record map `collect_results` returns has exactly the four
keys CNAME, A, AAAA, MX in that order; every CNAME entry carries fields
name and alias with the alias equal to the queried name; every A and
AAAA entry carries fields name and address; every MX entry carries
fields name, preference and exchange. -/
theorem c9_record_map_shape (fuel : Nat) (net : Net) (name : String) (dc : Cache)
    (m : RecordMap) (dc' : Cache)
    (h : (collect_results fuel net name dc).1 = Except.ok (m, dc')) :
    m.map Prod.fst = ["CNAME", "A", "AAAA", "MX"] ∧
    (∀ e ∈ RecordMap.get m "CNAME", ∃ n, e = REntry.cnameEntry n name) ∧
    (∀ e ∈ RecordMap.get m "A", ∃ n a, e = REntry.addrEntry n a) ∧
    (∀ e ∈ RecordMap.get m "AAAA", ∃ n a, e = REntry.addrEntry n a) ∧
    (∀ e ∈ RecordMap.get m "MX", ∃ n p x, e = REntry.mxEntry n p x) := by
  unfold collect_results at h
  obtain ⟨r1, hr1, h⟩ := bind_fst_ok h
  obtain ⟨r2, hr2, h⟩ := bind_fst_ok h
  obtain ⟨r3, hr3, h⟩ := bind_fst_ok h
  obtain ⟨r4, hr4, h⟩ := bind_fst_ok h
  simp only [M.pure, Except.ok.injEq, Prod.mk.injEq] at h
  obtain ⟨hm, hdc⟩ := h
  subst hm
  have g1 : ∀ c a a4 mx : List REntry,
      RecordMap.get [("CNAME", c), ("A", a), ("AAAA", a4), ("MX", mx)] "CNAME" = c :=
    fun _ _ _ _ => rfl
  have g2 : ∀ c a a4 mx : List REntry,
      RecordMap.get [("CNAME", c), ("A", a), ("AAAA", a4), ("MX", mx)] "A" = a :=
    fun _ _ _ _ => rfl
  have g3 : ∀ c a a4 mx : List REntry,
      RecordMap.get [("CNAME", c), ("A", a), ("AAAA", a4), ("MX", mx)] "AAAA" = a4 :=
    fun _ _ _ _ => rfl
  have g4 : ∀ c a a4 mx : List REntry,
      RecordMap.get [("CNAME", c), ("A", a), ("AAAA", a4), ("MX", mx)] "MX" = mx :=
    fun _ _ _ _ => rfl
  refine ⟨rfl, ?_, ?_, ?_, ?_⟩
  · intro e he
    rw [g1] at he
    simp only [List.mem_flatMap, List.mem_map] at he
    obtain ⟨answers, _, answer, _, he⟩ := he
    exact ⟨answer.str, he.symm⟩
  · intro e he
    rw [g2] at he
    simp only [List.mem_flatMap, List.mem_map] at he
    obtain ⟨answers, _, answer, _, he⟩ := he
    exact ⟨answers.name, answer.str, he.symm⟩
  · intro e he
    rw [g3] at he
    simp only [List.mem_flatMap, List.mem_map] at he
    obtain ⟨answers, _, answer, _, he⟩ := he
    exact ⟨answers.name, answer.str, he.symm⟩
  · intro e he
    rw [g4] at he
    simp only [List.mem_flatMap, List.mem_map] at he
    obtain ⟨answers, _, answer, _, he⟩ := he
    exact ⟨answers.name, answer.preference, answer.exchange, he.symm⟩

/-- C9 witness: the record map collected for "x." on netCol has the
claimed shape. -/
theorem c9_witness :
    mCol.map Prod.fst = ["CNAME", "A", "AAAA", "MX"] ∧
    (∀ e ∈ RecordMap.get mCol "CNAME", ∃ n, e = REntry.cnameEntry n "x.") ∧
    (∀ e ∈ RecordMap.get mCol "A", ∃ n a, e = REntry.addrEntry n a) ∧
    (∀ e ∈ RecordMap.get mCol "AAAA", ∃ n a, e = REntry.addrEntry n a) ∧
    (∀ e ∈ RecordMap.get mCol "MX", ∃ n p x, e = REntry.mxEntry n p x) :=
  c9_record_map_shape 2 netCol "x." [] mCol [("x.", mCol)] rfl

/-- C10: a non-A record in an additional-section rrset is skipped
without any recursion — the scan either breaks (found already true) or
moves on unchanged; and when every additional record of an answerless
NOERROR referral is non-A, the walker returns the referral and the
incoming found flag untouched after its single query, gaining nothing
from the section. -/
theorem c10_only_type_a_glue_used (glueStep : String → Bool → M (Message × Bool))
    (rd : Rdata) (rest : List Rdata) (resp : Message) (found : Bool)
    (hrd : rd.rdtype ≠ 1) :
    (additionalInnerGo glueStep (rd :: rest) resp found =
      if found then (Except.ok (resp, found), [])
      else additionalInnerGo glueStep rest resp found) ∧
    (∀ (fuel : Nat) (net : Net) (tn : String) (qt : Nat) (server : String) (resp' : Message),
      net tn qt server = NetResult.ok resp' → resp'.rcode = 0 → resp'.answer = [] →
      resp'.additional ≠ [] → (∀ s ∈ resp'.additional, ∀ r ∈ s.records, r.rdtype ≠ 1) →
      lookup_iter (fuel + 1) net tn qt server found =
        (Except.ok (resp', found), [(tn, qt, server)])) := by
  constructor
  · cases found <;> simp [additionalInnerGo, bind_eq, M.bind, M.pure, hrd]
  · intro fuel net tn qt server resp' hnet hrc hans hadd hall
    simp [lookup_iter, bind_eq, M.bind, tell, M.pure, hnet, hrc, hans, hadd,
      addOuterSkip _ _ _ _ hall]

/-- C10 witness: an AAAA additional record is skipped, and a referral
whose additional section holds only AAAA and NS records is returned
unchanged. -/
theorem c10_witness :
    (additionalInnerGo glue0 [Rdata.aaaa "::1"] emptyMessage false =
      if false then (Except.ok ((emptyMessage : Message), false), [])
      else additionalInnerGo glue0 [] emptyMessage false) ∧
    lookup_iter 1 netC10 "t." 1 "s" false =
      (Except.ok (respC10, false), [("t.", 1, "s")]) := by
  constructor
  · exact (c10_only_type_a_glue_used glue0 (Rdata.aaaa "::1") [] emptyMessage false
      (by decide)).1
  · exact (c10_only_type_a_glue_used glue0 (Rdata.aaaa "::1") [] emptyMessage false
      (by decide)).2 0 netC10 "t." 1 "s" respC10 rfl rfl rfl (by decide) (by decide)

end Resolve
